import Mathlib

/-!
# Verification model of `manim_live_preview.py`

A shallow embedding of the watch/rebuild orchestration core of the
live-preview tool, translated from `src/manim_live_preview.py`:

* target registry (`parse_targets`, lines 211-259),
* dependency checks (`ensure_deps`, lines 44-59),
* render invoker (`render_target` / `find_latest_mp4`, lines 105-144),
* watch router with routing-layer debounce (`PyChangeHandler.build.on_change`,
  lines 261-318),
* dashboard publishing order (`main` lines 355-360, `make_rebuild._rebuild`
  lines 378-390),
* a small-step concurrent model of two simultaneous `_rebuild` invocations
  for one target (the per-target lock of lines 380-384).

Filesystem paths are modelled as lists of canonical components; `resolve`
is taken as an oracle mapping raw spec strings to canonical paths (path
resolution is OS state, outside the program).  Wall-clock times are
rationals.  External effects (the engine process, `shutil.copyfile`) are
oracles: the engine is an exit code, the copy either fully succeeds or
fails leaving the destination untouched (the spec treats these
collaborators as opaque atomic operations).
-/

namespace MLP

/-! Structural-recursion models of the Python `str` methods the program
uses (`split`, `strip`, `lower`, `endswith`). -/

/-- Python `str.split(sep)` for a one-character separator: cut the
character list at every occurrence of `sep`, keeping empty pieces. -/
def splitChar (sep : Char) : List Char → List (List Char)
  | [] => [[]]
  | c :: cs =>
    if c = sep then [] :: splitChar sep cs
    else
      match splitChar sep cs with
      | [] => [[c]]
      | g :: gs => (c :: g) :: gs

/-- Python `str.strip()`: drop whitespace from both ends. -/
def pyStrip (s : String) : String :=
  ⟨((s.toList.dropWhile Char.isWhitespace).reverse.dropWhile
      Char.isWhitespace).reverse⟩

/-- Python `str.lower()` (ASCII case fold, which is all the program
compares). -/
def pyLower (s : String) : String :=
  ⟨s.toList.map Char.toLower⟩

/-- Python `str.endswith(suf)`. -/
def pyEndsWith (s suf : String) : Bool :=
  suf.toList.isSuffixOf s.toList

/-- A filesystem path as its list of canonical components
(e.g. `/home/u/foo/x.py` is `["home", "u", "foo", "x.py"]`). -/
abbrev FsPath := List String

/-- The final component of a path (Python `Path.name`; `""` for the root). -/
def pathName (p : FsPath) : String :=
  (p.getLast?).getD ""

/-- Index of the last `'.'` in a character list, if any
(Python `str.rfind('.')`, with `none` for `-1`). -/
def lastDotIdx : List Char → Option Nat
  | [] => none
  | c :: cs =>
    match lastDotIdx cs with
    | some i => some (i + 1)
    | none => if c = '.' then some 0 else none

/-- Python `PurePath.suffix` on a final component: the substring from the
last dot, unless that dot is the first character or the last character
(`"a.py" ↦ ".py"`, `".py" ↦ ""`, `"a." ↦ ""`, `"py" ↦ ""`). -/
def pySuffix (name : String) : String :=
  match lastDotIdx name.toList with
  | some i => if 0 < i ∧ i < name.length - 1 then ⟨name.toList.drop i⟩ else ""
  | none => ""

/-- Model of `p.suffix.lower()` at line 277: the lowercased extension of the path. -/
def pySuffixLower (p : FsPath) : String :=
  pyLower (pySuffix (pathName p))

/-- Python `Path.is_relative_to`: the candidate root's components are an
initial segment of the path's components (real path containment, unlike
a raw string-prefix test: `["foo"]` is not a component prefix of
`["foobar", "x.py"]`). -/
def is_relative_to (p root : FsPath) : Bool :=
  root.isPrefixOf p

/-- One configured build target (the `Target` dataclass, lines 27-38).
The `threading.Lock` field is not data; the lock discipline is modelled
by the small-step system `RStep` below.  `last_build_t` defaults to `0.0`
(line 37). -/
structure Target where
  src : FsPath
  scene : String
  name : String
  quality : String
  media_dir : FsPath
  preview_path : FsPath
  log_path : FsPath
  last_build_t : ℚ := 0
  root_dir : FsPath
deriving DecidableEq, Repr

/-- Environment oracles for `parse_targets`: `resolve` is
`Path(raw).resolve()` on a raw CLI string, `fileExists` is
`Path.exists()`, `autodetect` is `autodetect_scene` (an external
module-introspection step), `media_root` is `Path(args.media_dir).resolve()`
and `cwd` is `Path.cwd()`. -/
structure ParseEnv where
  resolve : String → FsPath
  fileExists : FsPath → Bool
  autodetect : FsPath → Option String
  quality : String
  media_root : FsPath
  cwd : FsPath

/-- Split one `--target` specification (lines 219-221):
`spec.split(":")`, `parts[0].strip()`, and `parts[1].strip()` as the scene
when there are at least two parts and that strip is nonempty. -/
def parseSpec (spec : String) : String × Option String :=
  let parts := (splitChar ':' spec.toList).map (fun l => (⟨l⟩ : String))
  let src := pyStrip ((parts.get? 0).getD "")
  let scene :=
    match parts.get? 1 with
    | some s => if pyStrip s = "" then none else some (pyStrip s)
    | none => none
  (src, scene)

/-- The loop body of `parse_targets` (lines 218-253), carrying the 0-based
index `idx` and the targets registered so far.  `sys.exit(1)` is the
`Except.error 1` outcome.  Directory creation (`mkdir`) is an idempotent
effect with no bearing on the returned data and is not modelled. -/
def parse_targets_go (env : ParseEnv) : Nat → List Target → List String →
    Except Nat (List Target)
  | _, acc, [] => .ok acc
  | idx, acc, spec :: rest =>
    let (src, sceneOpt) := parseSpec spec
    let src_path := env.resolve src
    if env.fileExists src_path then
      let sceneE : Except Nat String :=
        match sceneOpt with
        | some s => .ok s
        | none =>
          match env.autodetect src_path with
          | some s => .ok s
          | none => .error 1
      match sceneE with
      | .error e => .error e
      | .ok scene =>
        let base_name :=
          if scene ∈ acc.map Target.name then scene ++ "_" ++ toString (idx + 1)
          else scene
        let t : Target :=
          { src := src_path
            scene := scene
            name := base_name
            quality := env.quality
            media_dir := env.media_root ++ [base_name]
            preview_path := env.cwd ++ ["previews", base_name ++ ".mp4"]
            log_path := env.cwd ++ ["logs", base_name ++ ".log"]
            last_build_t := 0
            root_dir := src_path.dropLast }
        parse_targets_go env (idx + 1) (acc ++ [t]) rest
    else .error 1

/-- Function `parse_targets` (lines 211-259): register every specification in
order, then fail with exit status 1 when no target was produced
(lines 255-258). -/
def parse_targets (env : ParseEnv) (specs : List String) :
    Except Nat (List Target) :=
  match parse_targets_go env 0 [] specs with
  | .error e => .error e
  | .ok ts => if ts = [] then .error 1 else .ok ts

/-! ## Render invoker (`find_latest_mp4`, `render_target`, lines 105-144) -/

/-- A file's observable state: its bytes and its modification time
(`st_mtime`). -/
structure FileInfo where
  content : List Nat
  mtime : ℚ
deriving DecidableEq, Repr

/-- A filesystem snapshot: the regular files, each with its state.  The
list order is the traversal order of `Path.rglob`. -/
abbrev FS := List (FsPath × FileInfo)

/-- Read a file from a snapshot. -/
def fsLookup : FS → FsPath → Option FileInfo
  | [], _ => none
  | e :: fs, p => if e.1 = p then some e.2 else fsLookup fs p

/-- Overwrite (or create) a file in a snapshot. -/
def fsWrite : FS → FsPath → FileInfo → FS
  | [], p, fi => [(p, fi)]
  | e :: fs, p, fi => if e.1 = p then (p, fi) :: fs else e :: fsWrite fs p fi

/-- Whether `root.rglob("*.mp4")` yields `p`: the file lies strictly below
`root` (at any depth) and its final component ends with `.mp4`. -/
def isMp4Under (root : FsPath) (p : FsPath) : Bool :=
  is_relative_to p root && decide (root.length < p.length) &&
    pyEndsWith (pathName p) ".mp4"

/-- Fold selecting the first entry of maximal `mtime` in list order.
Line 107 sorts the matches by `st_mtime` descending (`sorted` with
`reverse=True` is stable, so ties keep traversal order) and takes the
head; the first maximum in traversal order is exactly that head. -/
def pickLatest : Option (FsPath × FileInfo) → List (FsPath × FileInfo) →
    Option (FsPath × FileInfo)
  | best, [] => best
  | none, e :: es => pickLatest (some e) es
  | some b, e :: es =>
    pickLatest (some (if b.2.mtime < e.2.mtime then e else b)) es

/-- Function `find_latest_mp4` (lines 105-110): the most recently modified `.mp4`
anywhere under `root`, or `none` if there is no such file. -/
def find_latest_mp4 (root : FsPath) (fs : FS) : Option (FsPath × FileInfo) :=
  pickLatest none (fs.filter (fun e => isMp4Under root e.1))

/-- External outcomes of one render invocation: the engine's exit status,
whether the `shutil.copyfile` call succeeds, and the modification time the
copy stamps on the preview file.  The copy is an opaque external operation
modelled as atomic: it either fully succeeds or fails leaving the
destination untouched. -/
structure RenderIn where
  exitCode : Int
  copyOk : Bool
  tcopy : ℚ
deriving DecidableEq, Repr

/-- Function `render_target` (lines 112-144) as a state transformer on the
filesystem snapshot, returning the boolean success and the snapshot after
the attempt.  A nonzero exit returns failure at line 126-129; a missing
artifact returns failure at lines 131-135 (a found entry exists in the
snapshot, so the extra `latest.exists()` re-check of line 132 is
subsumed); a copy error returns failure at lines 140-143.  Console and
log output carry no program state and are not modelled. -/
def render_target (t : Target) (inp : RenderIn) (fs : FS) : Bool × FS :=
  if inp.exitCode ≠ 0 then (false, fs)
  else
    match find_latest_mp4 t.media_dir fs with
    | none => (false, fs)
    | some latest =>
      if inp.copyOk then
        (true, fsWrite fs t.preview_path ⟨latest.2.content, inp.tcopy⟩)
      else (false, fs)

/-! ## Watch router and routing-layer debounce
(`PyChangeHandler`, lines 261-318) -/

/-- Reading `self._last.get(key, 0.0)` (line 285): the per-name last-admitted
timestamp dictionary, missing entries reading as `0.0`.  The dictionary
starts empty (`self._last = {}`, line 270). -/
def dictGet : List (String × ℚ) → String → ℚ
  | [], _ => 0
  | e :: d, k => if e.1 = k then e.2 else dictGet d k

/-- Writing `self._last[key] = now` (line 287). -/
def dictSet : List (String × ℚ) → String → ℚ → List (String × ℚ)
  | [], k, v => [(k, v)]
  | e :: d, k, v => if e.1 = k then (k, v) :: d else e :: dictSet d k v

/-- The default debounce window: `debounce=0.35` (lines 262 and 376). -/
def debounceWindow : ℚ := 7/20

/-- The target loop of `on_change` (lines 280-301), threading the
`_last` dictionary and returning it with the list of admitted target
names in iteration order (the code adds each admitted name to `fired`
and synchronously calls `self.rebuild_fn_map[t.name]()`).  The event
path arrives already resolved; `is_relative_to` is total here, so the
`except` fallback of lines 290-301 (a string `startswith` retry used
only when the containment test itself raises) is unreachable and has no
denotation in the model. -/
def on_change_go (db now : ℚ) (p : FsPath) :
    List Target → List (String × ℚ) → List (String × ℚ) × List String
  | [], last => (last, [])
  | t :: ts, last =>
    if is_relative_to p t.root_dir then
      if now - dictGet last t.name < db then on_change_go db now p ts last
      else
        let r := on_change_go db now p ts (dictSet last t.name now)
        (r.1, t.name :: r.2)
    else on_change_go db now p ts last

/-- Function `on_change` (lines 275-303): drop any path whose lowercased extension
is not `.py` (lines 277-278), otherwise route it through the per-target
containment and debounce gates.  `now` is the `time.time()` the event is
processed at. -/
def on_change (db now : ℚ) (p : FsPath) (targets : List Target)
    (last : List (String × ℚ)) : List (String × ℚ) × List String :=
  if pySuffixLower p ≠ ".py" then (last, [])
  else on_change_go db now p targets last

/-- A sequence of change events for the same path, delivered at the given
times, each processed by `on_change`; returns the final `_last`
dictionary and the concatenation of all admitted names. -/
def processEvents (db : ℚ) (p : FsPath) (targets : List Target) :
    List ℚ → List (String × ℚ) → List (String × ℚ) × List String
  | [], last => (last, [])
  | now :: rest, last =>
    let r1 := on_change db now p targets last
    let r2 := processEvents db p targets rest r1.1
    (r2.1, r1.2 ++ r2.2)

/-! ## Rebuild trigger and dashboard publishing
(`make_rebuild._rebuild` lines 378-390, `main` lines 355-360) -/

/-- The externally visible effects of the rebuild path, in program
order. -/
inductive Evt
  | render (ok : Bool)
  | writeDashboard
deriving DecidableEq, Repr

/-- Sequential denotation of one `_rebuild()` call (lines 379-390) for a
target whose `last_build_t` is `t_last`, triggered when `time.time()`
reads `now`, with the render outcome `ok`: inside the lock, a trigger
within the debounce window returns without any effect (lines 381-383);
otherwise the timestamp is updated (line 384) and, after the lock is
released, `render_target` runs and the dashboard is rewritten whether or
not the render succeeded (lines 386-389).  Returns the event trace and
the new `last_build_t`. -/
def rebuild_run (db t_last now : ℚ) (ok : Bool) : List Evt × ℚ :=
  if now - t_last < db then ([], t_last)
  else ([Evt.render ok, Evt.writeDashboard], now)

/-- The startup effects of `main` (lines 355-360): the dashboard page is
written once, then every target is rendered once, in registration order
(`renders` lists the outcome of each initial `render_target` call). -/
def main_startup (renders : List Bool) : List Evt :=
  Evt.writeDashboard :: renders.map Evt.render

/-! ## Concurrent model of two simultaneous `_rebuild` triggers
for one target (lines 378-390)

The `with tt.lock:` block (lines 380-384) makes the debounce
check-and-update atomic, so it is one step of the machine; the call to
`render_target` happens after the block, outside the lock, so entering
and leaving the render are separate steps that interleave freely with
the other trigger. -/

/-- Where one `_rebuild` invocation is in its execution.  A phase that
has passed the debounce gate records the `time.time()` value `tg` it
read inside the lock (the value written to `last_build_t`). -/
inductive RPhase
  | start
  | passed (tg : ℚ)
  | rendering (tg : ℚ)
  | noop
  | finished (tg : ℚ) (ok : Bool)
deriving DecidableEq, Repr

/-- A configuration: the current wall clock, the target's mutable
`last_build_t`, and the phases of the two concurrently triggered
`_rebuild` invocations. -/
structure RSys where
  clock : ℚ
  lastBuild : ℚ
  ph1 : RPhase
  ph2 : RPhase
deriving DecidableEq, Repr

/-- Interleaved small-step semantics of the two invocations.  `gate`
steps are the atomic lock-protected block of lines 380-384 (the
monotone clock is read inside the lock); `go` steps enter
`render_target` (line 386) and `fin` steps leave it, both outside the
lock. -/
inductive RStep (db : ℚ) : RSys → RSys → Prop
  | tick (s : RSys) (t : ℚ) (h : s.clock ≤ t) :
      RStep db s { s with clock := t }
  | gate1_pass (s : RSys) (h1 : s.ph1 = .start)
      (h : db ≤ s.clock - s.lastBuild) :
      RStep db s { s with ph1 := .passed s.clock, lastBuild := s.clock }
  | gate1_noop (s : RSys) (h1 : s.ph1 = .start)
      (h : s.clock - s.lastBuild < db) :
      RStep db s { s with ph1 := .noop }
  | go1 (s : RSys) (tg : ℚ) (h : s.ph1 = .passed tg) :
      RStep db s { s with ph1 := .rendering tg }
  | fin1 (s : RSys) (tg : ℚ) (ok : Bool) (h : s.ph1 = .rendering tg) :
      RStep db s { s with ph1 := .finished tg ok }
  | gate2_pass (s : RSys) (h2 : s.ph2 = .start)
      (h : db ≤ s.clock - s.lastBuild) :
      RStep db s { s with ph2 := .passed s.clock, lastBuild := s.clock }
  | gate2_noop (s : RSys) (h2 : s.ph2 = .start)
      (h : s.clock - s.lastBuild < db) :
      RStep db s { s with ph2 := .noop }
  | go2 (s : RSys) (tg : ℚ) (h : s.ph2 = .passed tg) :
      RStep db s { s with ph2 := .rendering tg }
  | fin2 (s : RSys) (tg : ℚ) (ok : Bool) (h : s.ph2 = .rendering tg) :
      RStep db s { s with ph2 := .finished tg ok }

/-- Reachability under the interleaved semantics. -/
def RReach (db : ℚ) : RSys → RSys → Prop :=
  Relation.ReflTransGen (RStep db)

/-- The initial configuration: wall clock at `t0`, `last_build_t` at its
dataclass default `0.0` (line 37), both triggers pending. -/
def initRSys (t0 : ℚ) : RSys :=
  { clock := t0, lastBuild := 0, ph1 := .start, ph2 := .start }

/-- Whether a phase is inside `render_target`. -/
def isRendering : RPhase → Bool
  | .rendering _ => true
  | _ => false

/-- The gate time recorded by a phase that has passed the debounce
gate. -/
def gateTime : RPhase → Option ℚ
  | .passed tg => some tg
  | .rendering tg => some tg
  | .finished tg _ => some tg
  | _ => none

/-- A concrete reachable configuration in which both triggers are inside
`render_target` simultaneously (trigger 1 gated at time 1, trigger 2 at
time 2). -/
def bothRenderingSys : RSys :=
  { clock := 2, lastBuild := 2, ph1 := .rendering 1, ph2 := .rendering 2 }

/-! ## Dependency checks (`ensure_deps`, lines 44-59) -/

/-- Which of the four external dependencies resolve in the execution
environment. -/
structure Deps where
  livereload : Bool
  watchdog : Bool
  manim : Bool
  ffmpeg : Bool
deriving DecidableEq, Repr

/-- Function `ensure_deps` (lines 44-59): a missing `livereload`, `watchdog` or
`manim` is fatal (`sys.exit(1)`, modelled as `Except.error 1`); a missing
`ffmpeg` only prints a warning (line 59) and the function returns, the
boolean recording whether that warning was printed. -/
def ensure_deps (d : Deps) : Except Nat Bool :=
  if ¬ d.livereload then .error 1
  else if ¬ d.watchdog then .error 1
  else if ¬ d.manim then .error 1
  else if ¬ d.ffmpeg then .ok true
  else .ok false

/-- A fixed environment for concrete evaluations: every file exists, a raw
string resolves to the single-component absolute path it names. -/
def evalEnv : ParseEnv :=
  { resolve := fun s => [s]
    fileExists := fun _ => true
    autodetect := fun _ => none
    quality := "ql"
    media_root := [".media_multi"]
    cwd := ["cwd"] }

/-- Fatal validation condition for one specification inside
`parse_targets`: its resolved source file does not exist (lines 224-226),
or no scene is given and autodetection yields nothing (lines 228-234). -/
def specFatal (env : ParseEnv) (spec : String) : Prop :=
  env.fileExists (env.resolve (parseSpec spec).1) = false ∨
    ((parseSpec spec).2 = none ∧
      env.autodetect (env.resolve (parseSpec spec).1) = none)

/-- The inductive invariant of the two-trigger rebuild system: the
recorded `last_build_t` never exceeds the clock, every recorded gate
time is at most `last_build_t`, and any two recorded gate times are at
least the debounce window apart. -/
def RInv (db : ℚ) (s : RSys) : Prop :=
  s.lastBuild ≤ s.clock ∧
    (∀ g, gateTime s.ph1 = some g → g ≤ s.lastBuild) ∧
    (∀ g, gateTime s.ph2 = some g → g ≤ s.lastBuild) ∧
    (∀ g1 g2, gateTime s.ph1 = some g1 → gateTime s.ph2 = some g2 →
      db ≤ |g1 - g2|)

/-! Concrete sample values used by the closed witness theorems. -/

/-- A sample target watching `/home/u`. -/
def tS : Target :=
  { src := ["home", "u", "a.py"]
    scene := "SceneA"
    name := "SceneA"
    quality := "ql"
    media_dir := [".media_multi", "SceneA"]
    preview_path := ["cwd", "previews", "SceneA.mp4"]
    log_path := ["cwd", "logs", "SceneA.log"]
    last_build_t := 0
    root_dir := ["home", "u"] }

/-- A sample target watching `/home/foo`. -/
def tFoo : Target :=
  { src := ["home", "foo", "f.py"]
    scene := "F"
    name := "F"
    quality := "ql"
    media_dir := [".media_multi", "F"]
    preview_path := ["cwd", "previews", "F.mp4"]
    log_path := ["cwd", "logs", "F.log"]
    last_build_t := 0
    root_dir := ["home", "foo"] }

/-- A sample target watching the sibling directory `/home/foobar`, whose
name shares a string prefix with `/home/foo`. -/
def tFoobar : Target :=
  { src := ["home", "foobar", "g.py"]
    scene := "G"
    name := "G"
    quality := "ql"
    media_dir := [".media_multi", "G"]
    preview_path := ["cwd", "previews", "G.mp4"]
    log_path := ["cwd", "logs", "G.log"]
    last_build_t := 0
    root_dir := ["home", "foobar"] }

/-- A sample filesystem snapshot: a fresh nested artifact (mtime 10), an
older artifact (mtime 4), and the existing preview file. -/
def fsS : FS :=
  [([".media_multi", "SceneA", "videos", "a", "480p15", "SceneA.mp4"],
      ⟨[1, 2, 3], 10⟩),
    ([".media_multi", "SceneA", "videos", "old.mp4"], ⟨[9], 4⟩),
    (["cwd", "previews", "SceneA.mp4"], ⟨[7, 7], 1⟩)]

/-! ## Theorems -/

/-- On every failure branch `render_target` returns the snapshot it was
given. -/
theorem render_target_fail_fs (t : Target) (inp : RenderIn) (fs : FS)
    (h : (render_target t inp fs).1 = false) :
    (render_target t inp fs).2 = fs := by
  unfold render_target at h ⊢
  by_cases hc : inp.exitCode ≠ 0
  · rw [if_pos hc]
  · rw [if_neg hc] at h ⊢
    cases hf : find_latest_mp4 t.media_dir fs with
    | none => simp [hf]
    | some latest =>
      by_cases hcopy : inp.copyOk = true
      · simp [hf, hcopy] at h
      · simp [hf, hcopy]

/-- C2: a render attempt that returns failure — nonzero engine exit,
no artifact found under the output directory, or an artifact copy
error — leaves the target's `previewPath` (indeed the whole filesystem
snapshot, hence the preview byte-identical) exactly as it was before
the attempt. -/
theorem failed_render_preserves_preview (t : Target) (inp : RenderIn)
    (fs : FS) (h : (render_target t inp fs).1 = false) :
    fsLookup (render_target t inp fs).2 t.preview_path
      = fsLookup fs t.preview_path := by
  rw [render_target_fail_fs t inp fs h]

/-- Witness for `failed_render_preserves_preview`: a nonzero exit on the
sample target and snapshot fails and preserves the preview lookup. -/
theorem failed_render_preserves_preview_witness :
    (render_target tS ⟨1, true, 20⟩ fsS).1 = false ∧
      fsLookup (render_target tS ⟨1, true, 20⟩ fsS).2 tS.preview_path
        = fsLookup fsS tS.preview_path :=
  ⟨rfl, failed_render_preserves_preview tS ⟨1, true, 20⟩ fsS rfl⟩

/-- C8: a change event whose path extension (lowercased) is not `.py`
triggers zero targets and leaves the debounce dictionary untouched,
whatever the targets and their watch roots. -/
theorem non_source_change_never_triggers (db now : ℚ) (p : FsPath)
    (targets : List Target) (last : List (String × ℚ))
    (h : pySuffixLower p ≠ ".py") :
    on_change db now p targets last = (last, []) := by
  simp [on_change, h]

/-- Witness for `non_source_change_never_triggers`: a change to a
generated `.mp4` artifact under the sample target's watch root produces
zero triggers. -/
theorem non_source_change_never_triggers_witness :
    pySuffixLower ["home", "u", "out.mp4"] ≠ ".py" ∧
      on_change debounceWindow 9 ["home", "u", "out.mp4"] [tS] []
        = ([], []) :=
  ⟨by decide,
    non_source_change_never_triggers debounceWindow 9 ["home", "u", "out.mp4"]
      [tS] [] (by decide)⟩

/-- C9: the dashboard page is written once at startup before any render
occurs (it is the head of the startup effect trace), and a triggered
rebuild that passes the debounce gate rewrites the dashboard after its
render whether the render succeeded or failed. -/
theorem dashboard_written_at_startup_and_after_rebuilds :
    (∀ renders : List Bool,
        (main_startup renders).head? = some Evt.writeDashboard) ∧
    (∀ t_last now : ℚ, ∀ ok : Bool, debounceWindow ≤ now - t_last →
        (rebuild_run debounceWindow t_last now ok).1
          = [Evt.render ok, Evt.writeDashboard]) := by
  constructor
  · intro renders; rfl
  · intro t_last now ok h
    simp [rebuild_run, not_lt.mpr h]

/-- Witness for `dashboard_written_at_startup_and_after_rebuilds`: a
rebuild at time 1 on a fresh target renders (here: failing) and then
rewrites the dashboard. -/
theorem dashboard_written_witness :
    debounceWindow ≤ (1 : ℚ) - 0 ∧
      (rebuild_run debounceWindow 0 1 false).1
        = [Evt.render false, Evt.writeDashboard] :=
  ⟨by norm_num [debounceWindow],
    dashboard_written_at_startup_and_after_rebuilds.2 0 1 false
      (by norm_num [debounceWindow])⟩

/-- The fold `pickLatest` yields the seed or a list element. -/
theorem pickLatest_mem : ∀ (l : List (FsPath × FileInfo))
    (b : Option (FsPath × FileInfo)) (r : FsPath × FileInfo),
    pickLatest b l = some r → b = some r ∨ r ∈ l := by
  intro l
  induction l with
  | nil =>
    intro b r h
    cases b with
    | none => simp [pickLatest] at h
    | some x => exact Or.inl (by simpa [pickLatest] using h)
  | cons e es ih =>
    intro b r h
    cases b with
    | none =>
      rcases ih (some e) r h with h1 | h2
      · exact Or.inr (by simp [Option.some.injEq] at h1; simp [h1])
      · exact Or.inr (List.mem_cons_of_mem e h2)
    | some x =>
      rcases ih _ r h with h1 | h2
      · by_cases hlt : x.2.mtime < e.2.mtime
        · simp [hlt] at h1; exact Or.inr (by simp [h1])
        · simp [hlt] at h1; exact Or.inl (by simp [h1])
      · exact Or.inr (List.mem_cons_of_mem e h2)

/-- The fold `pickLatest` yields an element of maximal `mtime` among the seed and
the list. -/
theorem pickLatest_max : ∀ (l : List (FsPath × FileInfo))
    (b : Option (FsPath × FileInfo)) (r : FsPath × FileInfo),
    pickLatest b l = some r →
    (∀ x, b = some x → x.2.mtime ≤ r.2.mtime) ∧
      ∀ e ∈ l, e.2.mtime ≤ r.2.mtime := by
  intro l
  induction l with
  | nil =>
    intro b r h
    refine ⟨fun x hx => ?_, fun e he => absurd he (List.not_mem_nil e)⟩
    cases b with
    | none => simp at hx
    | some y =>
      have hy : y = r := by simpa [pickLatest] using h
      have hx' : x = y := by simpa using hx.symm
      rw [hx', hy]
  | cons e es ih =>
    intro b r h
    cases b with
    | none =>
      have ⟨hseed, hrest⟩ := ih (some e) r h
      refine ⟨fun x hx => by simp at hx, fun f hf => ?_⟩
      rcases List.mem_cons.mp hf with h1 | h2
      · rw [h1]; exact hseed e rfl
      · exact hrest f h2
    | some x =>
      have ⟨hseed, hrest⟩ := ih _ r h
      have hm : (if x.2.mtime < e.2.mtime then e else x).2.mtime
          ≤ r.2.mtime := hseed _ rfl
      refine ⟨fun y hy => ?_, fun f hf => ?_⟩
      · have hy' : y = x := by simpa using hy.symm
        rw [hy']
        by_cases hlt : x.2.mtime < e.2.mtime
        · simp [hlt] at hm; exact le_trans (le_of_lt hlt) hm
        · simpa [hlt] using hm
      · rcases List.mem_cons.mp hf with h1 | h2
        · rw [h1]
          by_cases hlt : x.2.mtime < e.2.mtime
          · simpa [hlt] using hm
          · simp [hlt] at hm; exact le_trans (le_of_not_lt hlt) hm
        · exact hrest f h2

/-- The search `find_latest_mp4` yields an `.mp4` entry under the root, present in
the snapshot, of maximal `mtime` among all such entries. -/
theorem find_latest_mp4_spec (root : FsPath) (fs : FS)
    (r : FsPath × FileInfo) (h : find_latest_mp4 root fs = some r) :
    isMp4Under root r.1 = true ∧ r ∈ fs ∧
      ∀ e ∈ fs, isMp4Under root e.1 = true → e.2.mtime ≤ r.2.mtime := by
  unfold find_latest_mp4 at h
  have hmem : r ∈ fs.filter (fun e => isMp4Under root e.1) := by
    rcases pickLatest_mem _ none r h with h1 | h2
    · exact absurd h1 (by simp)
    · exact h2
  have hmax := (pickLatest_max _ none r h).2
  refine ⟨(List.mem_filter.mp hmem).2, (List.mem_filter.mp hmem).1,
    fun e he hmp4 => hmax e (List.mem_filter.mpr ⟨he, hmp4⟩)⟩

/-- Writing a file then reading it back yields the written state. -/
theorem fsLookup_fsWrite_self : ∀ (fs : FS) (p : FsPath) (fi : FileInfo),
    fsLookup (fsWrite fs p fi) p = some fi := by
  intro fs
  induction fs with
  | nil => intro p fi; simp [fsWrite, fsLookup]
  | cons e es ih =>
    intro p fi
    by_cases he : e.1 = p
    · simp [fsWrite, he, fsLookup]
    · simp [fsWrite, he, fsLookup, ih]

/-- C6: a successful render invocation copies to `previewPath` the
content of the most-recently-modified `.mp4` artifact found anywhere
(recursively) under the target's output directory — an artifact that is
under `media_dir` at any depth and whose `mtime` dominates every other
such artifact — and an invocation finding no artifact (in particular
after a zero exit) is a failure. -/
theorem success_publishes_latest_artifact :
    (∀ (t : Target) (inp : RenderIn) (fs : FS),
        (render_target t inp fs).1 = true →
        ∃ r : FsPath × FileInfo,
          find_latest_mp4 t.media_dir fs = some r ∧
            isMp4Under t.media_dir r.1 = true ∧ r ∈ fs ∧
            (∀ e ∈ fs, isMp4Under t.media_dir e.1 = true →
              e.2.mtime ≤ r.2.mtime) ∧
            (fsLookup (render_target t inp fs).2 t.preview_path).map
                FileInfo.content = some r.2.content) ∧
    (∀ (t : Target) (inp : RenderIn) (fs : FS),
        find_latest_mp4 t.media_dir fs = none →
        (render_target t inp fs).1 = false) := by
  constructor
  · intro t inp fs h
    unfold render_target at h ⊢
    by_cases hc : inp.exitCode ≠ 0
    · rw [if_pos hc] at h; simp at h
    · rw [if_neg hc] at h ⊢
      cases hf : find_latest_mp4 t.media_dir fs with
      | none => simp [hf] at h
      | some r =>
        by_cases hcopy : inp.copyOk = true
        · obtain ⟨hmp4, hmem, hmax⟩ := find_latest_mp4_spec _ _ _ hf
          exact ⟨r, rfl, hmp4, hmem, hmax,
            by simp [hcopy, fsLookup_fsWrite_self]⟩
        · simp [hf, hcopy] at h
  · intro t inp fs hf
    unfold render_target
    by_cases hc : inp.exitCode ≠ 0
    · rw [if_pos hc]
    · rw [if_neg hc, hf]

/-- Witness for `success_publishes_latest_artifact`: on the sample
snapshot a zero-exit render with a working copy succeeds, and the
preview afterwards holds the bytes of the newest nested artifact. -/
theorem success_publishes_latest_artifact_witness :
    (render_target tS ⟨0, true, 20⟩ fsS).1 = true ∧
      ∃ r : FsPath × FileInfo,
        find_latest_mp4 tS.media_dir fsS = some r ∧
          isMp4Under tS.media_dir r.1 = true ∧ r ∈ fsS ∧
          (∀ e ∈ fsS, isMp4Under tS.media_dir e.1 = true →
            e.2.mtime ≤ r.2.mtime) ∧
          (fsLookup (render_target tS ⟨0, true, 20⟩ fsS).2
              tS.preview_path).map FileInfo.content = some r.2.content :=
  ⟨by decide, success_publishes_latest_artifact.1 tS ⟨0, true, 20⟩ fsS
    (by decide)⟩

/-- The registration loop exits with status 1 as soon as it reaches a
specification whose source file is missing or whose scene cannot be
determined. -/
theorem parse_targets_go_fatal (env : ParseEnv) :
    ∀ (specs : List String) (idx : Nat) (acc : List Target),
    (∃ spec ∈ specs, specFatal env spec) →
    parse_targets_go env idx acc specs = .error 1 := by
  intro specs
  induction specs with
  | nil => intro idx acc h; rcases h with ⟨spec, hmem, _⟩; simp at hmem
  | cons s rest ih =>
    intro idx acc h
    by_cases hex : env.fileExists (env.resolve (parseSpec s).1) = true
    · by_cases hscene : (parseSpec s).2 = none ∧
          env.autodetect (env.resolve (parseSpec s).1) = none
      · simp only [parse_targets_go, hex, if_true]
        rcases hscene with ⟨h1, h2⟩
        simp [h1, h2]
      · have hrest : ∃ spec ∈ rest, specFatal env spec := by
          rcases h with ⟨spec, hmem, hfat⟩
          rcases List.mem_cons.mp hmem with heq | hm
          · exfalso
            rw [heq] at hfat
            rcases hfat with h1 | h2
            · rw [hex] at h1; exact absurd h1 (by decide)
            · exact hscene h2
          · exact ⟨spec, hm, hfat⟩
        simp only [parse_targets_go, hex, if_true]
        rcases hs : (parseSpec s).2 with _ | scn
        · rcases ha : env.autodetect (env.resolve (parseSpec s).1) with _ | scn'
          · exact absurd ⟨hs, ha⟩ hscene
          · simp only [hs, ha]
            exact ih _ _ hrest
        · simp only [hs]
          exact ih _ _ hrest
    · simp only [parse_targets_go]
      rw [if_neg hex]

/-- C7: a missing rendering engine (`manim`) — like a missing
`livereload` or `watchdog` — terminates the process with exit status 1,
a missing `ffmpeg` only produces a warning and the process continues,
and a specification whose source file does not exist, or whose scene is
neither given nor autodetectable, makes target registration exit with
status 1. -/
theorem fatal_config_errors_exit_nonzero :
    (∀ d : Deps, d.manim = false → ensure_deps d = .error 1) ∧
    (∀ d : Deps, d.livereload = true → d.watchdog = true → d.manim = true →
        ensure_deps d = .ok (!d.ffmpeg)) ∧
    (∀ (env : ParseEnv) (specs : List String) (spec : String),
        spec ∈ specs → specFatal env spec →
        parse_targets env specs = .error 1) := by
  refine ⟨fun d hm => ?_, fun d h1 h2 h3 => ?_, fun env specs spec hmem hfat => ?_⟩
  · rcases d with ⟨lr, wd, mn, ff⟩
    cases lr <;> cases wd <;> simp_all [ensure_deps]
  · rcases d with ⟨lr, wd, mn, ff⟩
    cases ff <;> simp_all [ensure_deps]
  · unfold parse_targets
    rw [parse_targets_go_fatal env specs 0 [] ⟨spec, hmem, hfat⟩]

/-- Witness for `fatal_config_errors_exit_nonzero`: a `Deps` record with
only `manim` missing is fatal; one with only `ffmpeg` missing warns and
continues; a spec list whose second entry names a missing file exits
with status 1. -/
theorem fatal_config_errors_exit_nonzero_witness :
    ((⟨true, true, false, true⟩ : Deps).manim = false ∧
      ensure_deps ⟨true, true, false, true⟩ = .error 1) ∧
    (ensure_deps ⟨true, true, true, false⟩ = .ok true) ∧
    ("missing.py:S" ∈ ["a.py:SceneA", "missing.py:S"] ∧
      specFatal
        { evalEnv with fileExists := fun p => decide (p ≠ ["missing.py"]) }
        "missing.py:S" ∧
      parse_targets
        { evalEnv with fileExists := fun p => decide (p ≠ ["missing.py"]) }
        ["a.py:SceneA", "missing.py:S"] = .error 1) :=
  ⟨⟨rfl, fatal_config_errors_exit_nonzero.1 ⟨true, true, false, true⟩ rfl⟩,
    fatal_config_errors_exit_nonzero.2.1 ⟨true, true, true, false⟩ rfl rfl rfl,
    ⟨by decide, by left; decide,
      fatal_config_errors_exit_nonzero.2.2 _ _ "missing.py:S" (by decide)
        (by left; decide)⟩⟩

/-- C3 (failing evaluation): the single-shot collision rename of
lines 236-239 is not re-checked against already registered names, so the
accepted specification list `a.py:SceneA`, `b.py:SceneA_3`, `c.py:SceneA`
registers the names `SceneA`, `SceneA_3`, `SceneA_3` — not pairwise
distinct, and the two clashing targets get identical preview paths.  The
documented two-target scenario (`SceneA`, `SceneA_2`) does hold. -/
theorem parse_targets_duplicate_names :
    (parse_targets evalEnv ["a.py:SceneA", "b.py:SceneA"]).map
        (List.map Target.name) = .ok ["SceneA", "SceneA_2"] ∧
    (parse_targets evalEnv
          ["a.py:SceneA", "b.py:SceneA_3", "c.py:SceneA"]).map
        (List.map Target.name) = .ok ["SceneA", "SceneA_3", "SceneA_3"] ∧
    ¬ List.Pairwise (fun a b => a ≠ b)
        ["SceneA", "SceneA_3", "SceneA_3"] ∧
    (parse_targets evalEnv
          ["a.py:SceneA", "b.py:SceneA_3", "c.py:SceneA"]).map
        (List.map Target.preview_path) =
      .ok [["cwd", "previews", "SceneA.mp4"],
        ["cwd", "previews", "SceneA_3.mp4"],
        ["cwd", "previews", "SceneA_3.mp4"]] :=
  ⟨rfl, rfl, by decide, rfl⟩

/-- Reading back the key just written. -/
theorem dictGet_dictSet_self : ∀ (d : List (String × ℚ)) (k : String)
    (v : ℚ), dictGet (dictSet d k v) k = v := by
  intro d
  induction d with
  | nil => intro k v; simp [dictSet, dictGet]
  | cons e es ih =>
    intro k v
    by_cases he : e.1 = k
    · simp [dictSet, he, dictGet]
    · simp [dictSet, he, dictGet, ih]

/-- Writing one key leaves every other key's reading unchanged. -/
theorem dictGet_dictSet_ne : ∀ (d : List (String × ℚ)) (k k' : String)
    (v : ℚ), k ≠ k' → dictGet (dictSet d k v) k' = dictGet d k' := by
  intro d
  induction d with
  | nil => intro k k' v hne; simp [dictSet, dictGet, hne]
  | cons e es ih =>
    intro k k' v hne
    by_cases he : e.1 = k
    · simp [dictSet, he, dictGet, hne]
    · simp [dictSet, he, dictGet, ih _ _ _ hne]

/-- Unfolding `on_change` on a single-target list. -/
theorem on_change_singleton (db now : ℚ) (p : FsPath) (t : Target)
    (last : List (String × ℚ)) :
    on_change db now p [t] last =
      if pySuffixLower p ≠ ".py" then (last, [])
      else if is_relative_to p t.root_dir = true then
        if now - dictGet last t.name < db then (last, [])
        else (dictSet last t.name now, [t.name])
      else (last, []) := by
  by_cases hs : pySuffixLower p ≠ ".py"
  · simp [on_change, hs]
  · by_cases hrel : is_relative_to p t.root_dir = true
    · by_cases htime : now - dictGet last t.name < db
      · simp [on_change, on_change_go, hs, hrel, htime]
      · simp [on_change, on_change_go, hs, hrel, htime]
    · simp [on_change, on_change_go, hs, hrel]

/-- An event within the window of the previous admitted event for the
target is dropped without any state change. -/
theorem on_change_dropped (db now : ℚ) (p : FsPath) (t : Target)
    (last : List (String × ℚ))
    (htime : now - dictGet last t.name < db) :
    on_change db now p [t] last = (last, []) := by
  rw [on_change_singleton]
  by_cases h1 : pySuffixLower p ≠ ".py"
  · rw [if_pos h1]
  · rw [if_neg h1]
    by_cases h2 : is_relative_to p t.root_dir = true
    · rw [if_pos h2, if_pos htime]
    · rw [if_neg h2]

/-- A burst lying entirely within the window of the previous admitted
event is dropped event by event. -/
theorem processEvents_all_dropped (db : ℚ) (p : FsPath) (t : Target) :
    ∀ (times : List ℚ) (last : List (String × ℚ)),
    (∀ x ∈ times, x - dictGet last t.name < db) →
    processEvents db p [t] times last = (last, []) := by
  intro times
  induction times with
  | nil => intro last _; rfl
  | cons now rest ih =>
    intro last h
    have h1 : on_change db now p [t] last = (last, []) :=
      on_change_dropped db now p t last (h now (List.mem_cons_self now rest))
    simp [processEvents, h1,
      ih last (fun x hx => h x (List.mem_cons_of_mem now hx))]

/-- Every name admitted by the router belongs to a listed target whose
watch root contains the changed path. -/
theorem on_change_go_fired_sub (db now : ℚ) (p : FsPath) :
    ∀ (targets : List Target) (last : List (String × ℚ)) (name : String),
    name ∈ (on_change_go db now p targets last).2 →
    ∃ t ∈ targets, t.name = name ∧ is_relative_to p t.root_dir = true := by
  intro targets
  induction targets with
  | nil => intro last name h; simp [on_change_go] at h
  | cons t ts ih =>
    intro last name h
    by_cases hrel : is_relative_to p t.root_dir = true
    · by_cases htime : now - dictGet last t.name < db
      · rw [on_change_go, if_pos hrel, if_pos htime] at h
        obtain ⟨t', ht', hn, hr⟩ := ih last name h
        exact ⟨t', List.mem_cons_of_mem t ht', hn, hr⟩
      · rw [on_change_go, if_pos hrel, if_neg htime] at h
        rcases List.mem_cons.mp h with heq | hm
        · exact ⟨t, List.mem_cons_self t ts, heq.symm, hrel⟩
        · obtain ⟨t', ht', hn, hr⟩ := ih _ name hm
          exact ⟨t', List.mem_cons_of_mem t ht', hn, hr⟩
    · rw [on_change_go, if_neg hrel] at h
      obtain ⟨t', ht', hn, hr⟩ := ih last name h
      exact ⟨t', List.mem_cons_of_mem t ht', hn, hr⟩

/-- When target names are pairwise distinct, a listed target's name is
admitted exactly when the path lies under its watch root and the event
falls outside the window of the previous admitted event for it. -/
theorem on_change_go_mem_iff (db now : ℚ) (p : FsPath) :
    ∀ (targets : List Target) (last : List (String × ℚ)) (t0 : Target),
    (targets.map Target.name).Nodup → t0 ∈ targets →
    (t0.name ∈ (on_change_go db now p targets last).2 ↔
      (is_relative_to p t0.root_dir = true ∧
        db ≤ now - dictGet last t0.name)) := by
  intro targets
  induction targets with
  | nil => intro last t0 _ h0; simp at h0
  | cons t ts ih =>
    intro last t0 hnd h0
    have hn1 : t.name ∉ ts.map Target.name := (List.nodup_cons.mp hnd).1
    have hn2 : (ts.map Target.name).Nodup := (List.nodup_cons.mp hnd).2
    rcases List.mem_cons.mp h0 with heq | hmem
    · subst heq
      by_cases hrel : is_relative_to p t0.root_dir = true
      · by_cases htime : now - dictGet last t0.name < db
        · rw [on_change_go, if_pos hrel, if_pos htime]
          constructor
          · intro h
            obtain ⟨t', ht', hn, _⟩ := on_change_go_fired_sub db now p ts last _ h
            exact absurd (hn ▸ List.mem_map_of_mem Target.name ht') hn1
          · intro ⟨_, hge⟩
            exact absurd htime (not_lt.mpr hge)
        · rw [on_change_go, if_pos hrel, if_neg htime]
          constructor
          · exact fun _ => ⟨hrel, le_of_not_lt htime⟩
          · exact fun _ => List.mem_cons_self t0.name _
      · rw [on_change_go, if_neg hrel]
        constructor
        · intro h
          obtain ⟨t', ht', hn, _⟩ := on_change_go_fired_sub db now p ts last _ h
          exact absurd (hn ▸ List.mem_map_of_mem Target.name ht') hn1
        · intro ⟨hr, _⟩
          exact absurd hr hrel
    · have hne : t.name ≠ t0.name := by
        intro he
        exact hn1 (he ▸ List.mem_map_of_mem Target.name hmem)
      by_cases hrel : is_relative_to p t.root_dir = true
      · by_cases htime : now - dictGet last t.name < db
        · rw [on_change_go, if_pos hrel, if_pos htime]
          exact ih last t0 hn2 hmem
        · rw [on_change_go, if_pos hrel, if_neg htime]
          simp only [List.mem_cons]
          rw [ih (dictSet last t.name now) t0 hn2 hmem,
            dictGet_dictSet_ne last t.name t0.name now hne]
          constructor
          · rintro (he | h)
            · exact absurd he.symm hne
            · exact h
          · exact fun h => Or.inr h
      · rw [on_change_go, if_neg hrel]
        exact ih last t0 hn2 hmem

/-- Two component-prefixes of the same path are comparable: one is a
component-prefix of the other. -/
theorem isPrefixOf_comparable : ∀ (c a b : List String),
    a.isPrefixOf c = true → b.isPrefixOf c = true →
    a.isPrefixOf b = true ∨ b.isPrefixOf a = true := by
  intro c
  induction c with
  | nil =>
    intro a b ha hb
    cases a with
    | nil => exact Or.inl (by cases b <;> rfl)
    | cons x xs => simp [List.isPrefixOf] at ha
  | cons z zs ih =>
    intro a b ha hb
    cases a with
    | nil => exact Or.inl (by cases b <;> rfl)
    | cons x xs =>
      cases b with
      | nil => exact Or.inr rfl
      | cons y ys =>
        simp only [List.isPrefixOf, Bool.and_eq_true, beq_iff_eq] at ha hb
        rcases ih xs ys ha.2 hb.2 with h | h
        · exact Or.inl (by simp [List.isPrefixOf, ha.1, hb.1, h])
        · exact Or.inr (by simp [List.isPrefixOf, ha.1, hb.1, h])

/-- C5: routing is by path containment.  With pairwise-distinct target
names, a target's rebuild is triggered by a change event exactly when
the path is a relevant source file lying under that target's watch root
and the per-target debounce admits the event; consequently, for two
targets whose watch roots do not contain one another (including sibling
directories with overlapping name prefixes), an event under the first
target's root never triggers the second target. -/
theorem routing_by_path_containment :
    (∀ (now : ℚ) (p : FsPath) (targets : List Target)
        (last : List (String × ℚ)) (t0 : Target),
        (targets.map Target.name).Nodup → t0 ∈ targets →
        (t0.name ∈ (on_change debounceWindow now p targets last).2 ↔
          (pySuffixLower p = ".py" ∧
            is_relative_to p t0.root_dir = true ∧
            debounceWindow ≤ now - dictGet last t0.name))) ∧
    (∀ (now : ℚ) (p : FsPath) (targets : List Target)
        (last : List (String × ℚ)) (t1 t2 : Target),
        (targets.map Target.name).Nodup → t1 ∈ targets → t2 ∈ targets →
        t1.root_dir.isPrefixOf t2.root_dir = false →
        t2.root_dir.isPrefixOf t1.root_dir = false →
        is_relative_to p t1.root_dir = true →
        t2.name ∉ (on_change debounceWindow now p targets last).2) := by
  have hmain : ∀ (now : ℚ) (p : FsPath) (targets : List Target)
      (last : List (String × ℚ)) (t0 : Target),
      (targets.map Target.name).Nodup → t0 ∈ targets →
      (t0.name ∈ (on_change debounceWindow now p targets last).2 ↔
        (pySuffixLower p = ".py" ∧
          is_relative_to p t0.root_dir = true ∧
          debounceWindow ≤ now - dictGet last t0.name)) := by
    intro now p targets last t0 hnd h0
    by_cases hs : pySuffixLower p = ".py"
    · unfold on_change
      rw [if_neg (by simpa using hs)]
      rw [on_change_go_mem_iff debounceWindow now p targets last t0 hnd h0]
      simp [hs]
    · unfold on_change
      rw [if_pos hs]
      simp [hs]
  refine ⟨hmain, fun now p targets last t1 t2 hnd h1 h2 hp1 hp2 hrel hin => ?_⟩
  have h := (hmain now p targets last t2 hnd h2).mp hin
  rcases isPrefixOf_comparable p t1.root_dir t2.root_dir hrel h.2.1 with
    hc | hc
  · rw [hp1] at hc; exact absurd hc (by decide)
  · rw [hp2] at hc; exact absurd hc (by decide)

/-- Witness for `routing_by_path_containment`: with the sibling targets
watching `/home/foo` and `/home/foobar`, a change to `/home/foo/f.py`
triggers the first target (per the admit characterization) and never the
second, although `"/home/foo"` is a string prefix of `"/home/foobar"`. -/
theorem routing_by_path_containment_witness :
    ([tFoo, tFoobar].map Target.name).Nodup ∧
    tFoo ∈ [tFoo, tFoobar] ∧ tFoobar ∈ [tFoo, tFoobar] ∧
    tFoo.root_dir.isPrefixOf tFoobar.root_dir = false ∧
    tFoobar.root_dir.isPrefixOf tFoo.root_dir = false ∧
    is_relative_to ["home", "foo", "f.py"] tFoo.root_dir = true ∧
    (tFoo.name ∈ (on_change debounceWindow 1 ["home", "foo", "f.py"]
        [tFoo, tFoobar] []).2 ↔
      (pySuffixLower ["home", "foo", "f.py"] = ".py" ∧
        is_relative_to ["home", "foo", "f.py"] tFoo.root_dir = true ∧
        debounceWindow ≤ 1 - dictGet [] tFoo.name)) ∧
    tFoobar.name ∉ (on_change debounceWindow 1 ["home", "foo", "f.py"]
      [tFoo, tFoobar] []).2 :=
  ⟨by decide, by decide, by decide, by decide, by decide, by decide,
    routing_by_path_containment.1 1 ["home", "foo", "f.py"]
      [tFoo, tFoobar] [] tFoo (by decide) (by decide),
    routing_by_path_containment.2 1 ["home", "foo", "f.py"]
      [tFoo, tFoobar] [] tFoo tFoobar (by decide) (by decide) (by decide)
      (by decide) (by decide) (by decide)⟩

/-- C4: the routing-layer debounce.  A relevant change event for a
target is admitted exactly when it falls at least the window after the
previous admitted event for that same target (so it is dropped when it
arrives within the window), and any burst of events for one target whose
times pairwise differ by less than the window dispatches at most one
rebuild. -/
theorem routing_debounce_burst :
    (∀ (t : Target) (p : FsPath) (last : List (String × ℚ)) (now : ℚ),
        pySuffixLower p = ".py" → is_relative_to p t.root_dir = true →
        ((on_change debounceWindow now p [t] last).2 = [t.name] ↔
          debounceWindow ≤ now - dictGet last t.name)) ∧
    (∀ (t : Target) (p : FsPath) (last : List (String × ℚ))
        (times : List ℚ),
        (∀ x ∈ times, ∀ y ∈ times, x - y < debounceWindow) →
        (processEvents debounceWindow p [t] times last).2.length ≤ 1) := by
  constructor
  · intro t p last now hs hrel
    rw [on_change_singleton]
    rw [if_neg (by simpa using hs), if_pos hrel]
    by_cases htime : now - dictGet last t.name < debounceWindow
    · rw [if_pos htime]
      constructor
      · intro h; simp at h
      · intro h; exact absurd htime (not_lt.mpr h)
    · rw [if_neg htime]
      simp [le_of_not_lt htime]
  · intro t p last times
    induction times generalizing last with
    | nil => intro _; simp [processEvents]
    | cons now rest ih =>
      intro h
      have hhead : now ∈ now :: rest := List.mem_cons_self now rest
      by_cases htime : now - dictGet last t.name < debounceWindow
      · have h1 := on_change_dropped debounceWindow now p t last htime
        simp only [processEvents, h1]
        exact ih last (fun x hx y hy =>
          h x (List.mem_cons_of_mem now hx) y (List.mem_cons_of_mem now hy))
      · have h1 : on_change debounceWindow now p [t] last =
            if pySuffixLower p ≠ ".py" then (last, [])
            else if is_relative_to p t.root_dir = true then
              (dictSet last t.name now, [t.name])
            else (last, []) := by
          rw [on_change_singleton]
          by_cases hA : pySuffixLower p ≠ ".py"
          · simp only [if_pos hA]
          · simp only [if_neg hA]
            by_cases hB : is_relative_to p t.root_dir = true
            · simp only [if_pos hB, if_neg htime]
            · simp only [if_neg hB]
        by_cases hs : pySuffixLower p ≠ ".py"
        · rw [if_pos hs] at h1
          simp only [processEvents, h1]
          exact ih last (fun x hx y hy =>
            h x (List.mem_cons_of_mem now hx) y (List.mem_cons_of_mem now hy))
        · rw [if_neg hs] at h1
          by_cases hrel : is_relative_to p t.root_dir = true
          · rw [if_pos hrel] at h1
            have hdrop := processEvents_all_dropped debounceWindow p t rest
              (dictSet last t.name now)
              (fun x hx => by
                rw [dictGet_dictSet_self]
                exact h x (List.mem_cons_of_mem now hx) now hhead)
            simp [processEvents, h1, hdrop]
          · rw [if_neg hrel] at h1
            simp only [processEvents, h1]
            exact ih last (fun x hx y hy =>
              h x (List.mem_cons_of_mem now hx) y (List.mem_cons_of_mem now hy))

/-- Witness for `routing_debounce_burst`: a first event for the sample
target at time 1 is admitted (fresh dictionary), and two events both at
time 1 dispatch at most one rebuild. -/
theorem routing_debounce_burst_witness :
    pySuffixLower ["home", "u", "a.py"] = ".py" ∧
    is_relative_to ["home", "u", "a.py"] tS.root_dir = true ∧
    ((on_change debounceWindow 1 ["home", "u", "a.py"] [tS] []).2
        = [tS.name] ↔ debounceWindow ≤ 1 - dictGet [] tS.name) ∧
    (∀ x ∈ [(1 : ℚ), 1], ∀ y ∈ [(1 : ℚ), 1], x - y < debounceWindow) ∧
    (processEvents debounceWindow ["home", "u", "a.py"] [tS]
        [(1 : ℚ), 1] []).2.length ≤ 1 := by
  have hpair : ∀ x ∈ [(1 : ℚ), 1], ∀ y ∈ [(1 : ℚ), 1],
      x - y < debounceWindow := by
    intro x hx y hy
    simp at hx hy
    rw [hx, hy]
    norm_num [debounceWindow]
  exact ⟨by decide, by decide,
    routing_debounce_burst.1 tS ["home", "u", "a.py"] [] 1 (by decide)
      (by decide),
    hpair,
    routing_debounce_burst.2 tS ["home", "u", "a.py"] [] [(1 : ℚ), 1] hpair⟩

/-- C10: the first change event for a target after startup is never
suppressed.  The routing dictionary starts empty (missing entries read
as `0`) and `last_build_t` starts at its dataclass default `0`, so as
soon as the clock has reached the debounce window, a relevant event
under the target's root is admitted by the router and the triggered
rebuild passes the invocation-layer gate and proceeds to render (then
rewrites the dashboard). -/
theorem first_event_not_suppressed (t : Target) (p : FsPath)
    (now1 now2 : ℚ) (ok : Bool)
    (hsuf : pySuffixLower p = ".py")
    (hrel : is_relative_to p t.root_dir = true)
    (h1 : debounceWindow ≤ now1) (h12 : now1 ≤ now2)
    (h0 : t.last_build_t = 0) :
    (on_change debounceWindow now1 p [t] []).2 = [t.name] ∧
      (rebuild_run debounceWindow t.last_build_t now2 ok).1
        = [Evt.render ok, Evt.writeDashboard] := by
  constructor
  · rw [on_change_singleton, if_neg (by simpa using hsuf), if_pos hrel]
    rw [if_neg (by simp [dictGet]; linarith)]
  · rw [h0]
    unfold rebuild_run
    rw [if_neg (by simp; linarith)]

/-- Witness for `first_event_not_suppressed`: the sample target's first
event at time 1, rebuild gate read at time 2. -/
theorem first_event_not_suppressed_witness :
    pySuffixLower ["home", "u", "a.py"] = ".py" ∧
    is_relative_to ["home", "u", "a.py"] tS.root_dir = true ∧
    debounceWindow ≤ (1 : ℚ) ∧ (1 : ℚ) ≤ 2 ∧ tS.last_build_t = 0 ∧
    ((on_change debounceWindow 1 ["home", "u", "a.py"] [tS] []).2
        = [tS.name] ∧
      (rebuild_run debounceWindow tS.last_build_t 2 true).1
        = [Evt.render true, Evt.writeDashboard]) :=
  ⟨by decide, by decide, by norm_num [debounceWindow], by norm_num, rfl,
    first_event_not_suppressed tS ["home", "u", "a.py"] 1 2 true (by decide)
      (by decide) (by norm_num [debounceWindow]) (by norm_num) rfl⟩

/-- Each step of the two-trigger rebuild system preserves `RInv`. -/
theorem RInv_step (db : ℚ) (s s' : RSys) (hstep : RStep db s s')
    (hinv : RInv db s) : RInv db s' := by
  obtain ⟨hlc, hg1, hg2, hpair⟩ := hinv
  cases hstep with
  | tick t h =>
    exact ⟨le_trans hlc h, hg1, hg2, hpair⟩
  | gate1_pass h1 h =>
    refine ⟨le_refl _, ?_, ?_, ?_⟩
    · intro g hg
      have hgc : g = s.clock := by simpa [gateTime] using hg.symm
      rw [hgc]
    · intro g hg
      exact le_trans (hg2 g hg) hlc
    · intro g1 g2 hga hgb
      have hgc : g1 = s.clock := by simpa [gateTime] using hga.symm
      have hb := hg2 g2 hgb
      rw [hgc]
      calc db ≤ s.clock - g2 := by linarith
        _ ≤ |s.clock - g2| := le_abs_self _
  | gate1_noop h1 h =>
    refine ⟨hlc, ?_, hg2, ?_⟩
    · intro g hg; simp [gateTime] at hg
    · intro g1 g2 hga _; simp [gateTime] at hga
  | go1 tg h =>
    refine ⟨hlc, ?_, hg2, ?_⟩
    · intro g hg
      have hgc : g = tg := by simpa [gateTime] using hg.symm
      rw [hgc]
      exact hg1 tg (by rw [h]; rfl)
    · intro g1 g2 hga hgb
      have hgc : g1 = tg := by simpa [gateTime] using hga.symm
      rw [hgc]
      exact hpair tg g2 (by rw [h]; rfl) hgb
  | fin1 tg ok h =>
    refine ⟨hlc, ?_, hg2, ?_⟩
    · intro g hg
      have hgc : g = tg := by simpa [gateTime] using hg.symm
      rw [hgc]
      exact hg1 tg (by rw [h]; rfl)
    · intro g1 g2 hga hgb
      have hgc : g1 = tg := by simpa [gateTime] using hga.symm
      rw [hgc]
      exact hpair tg g2 (by rw [h]; rfl) hgb
  | gate2_pass h2 h =>
    refine ⟨le_refl _, ?_, ?_, ?_⟩
    · intro g hg
      exact le_trans (hg1 g hg) hlc
    · intro g hg
      have hgc : g = s.clock := by simpa [gateTime] using hg.symm
      rw [hgc]
    · intro g1 g2 hga hgb
      have hgc : g2 = s.clock := by simpa [gateTime] using hgb.symm
      have ha := hg1 g1 hga
      rw [hgc, abs_sub_comm]
      calc db ≤ s.clock - g1 := by linarith
        _ ≤ |s.clock - g1| := le_abs_self _
  | gate2_noop h2 h =>
    refine ⟨hlc, hg1, ?_, ?_⟩
    · intro g hg; simp [gateTime] at hg
    · intro g1 g2 _ hgb; simp [gateTime] at hgb
  | go2 tg h =>
    refine ⟨hlc, hg1, ?_, ?_⟩
    · intro g hg
      have hgc : g = tg := by simpa [gateTime] using hg.symm
      rw [hgc]
      exact hg2 tg (by rw [h]; rfl)
    · intro g1 g2 hga hgb
      have hgc : g2 = tg := by simpa [gateTime] using hgb.symm
      rw [hgc]
      exact hpair g1 tg hga (by rw [h]; rfl)
  | fin2 tg ok h =>
    refine ⟨hlc, hg1, ?_, ?_⟩
    · intro g hg
      have hgc : g = tg := by simpa [gateTime] using hg.symm
      rw [hgc]
      exact hg2 tg (by rw [h]; rfl)
    · intro g1 g2 hga hgb
      have hgc : g2 = tg := by simpa [gateTime] using hgb.symm
      rw [hgc]
      exact hpair g1 tg hga (by rw [h]; rfl)

/-- Invariant `RInv` holds along every reachable configuration. -/
theorem RInv_reach (db : ℚ) (s0 s : RSys) (h0 : RInv db s0)
    (hr : RReach db s0 s) : RInv db s := by
  induction hr with
  | refl => exact h0
  | tail _ hstep ih => exact RInv_step db _ _ hstep ih

/-- Invariant `RInv` holds initially whenever the clock starts at or after the
`last_build_t` default `0`. -/
theorem RInv_init (db t0 : ℚ) (h : 0 ≤ t0) : RInv db (initRSys t0) :=
  ⟨h, fun g hg => by simp [initRSys, gateTime] at hg,
    fun g hg => by simp [initRSys, gateTime] at hg,
    fun g1 g2 hg _ => by simp [initRSys, gateTime] at hg⟩

/-- C1 (amended): the per-target lock covers only the debounce
check-and-update of lines 380-384, not the render itself.  What the lock
does guarantee is that any two triggers which both pass the gate read
gate times at least the debounce window apart — equivalently, a second
trigger gated within the window of the first observes the just-updated
`last_build_t` and no-ops.  (Renders themselves may overlap; see the
counterexample.) -/
theorem rebuild_gate_times_separated (t0 : ℚ) (h0 : 0 ≤ t0) (s : RSys)
    (hr : RReach debounceWindow (initRSys t0) s) (g1 g2 : ℚ)
    (hg1 : gateTime s.ph1 = some g1) (hg2 : gateTime s.ph2 = some g2) :
    debounceWindow ≤ |g1 - g2| :=
  (RInv_reach debounceWindow (initRSys t0) s
    (RInv_init debounceWindow t0 h0) hr).2.2.2 g1 g2 hg1 hg2

/-- An explicit five-step interleaving: trigger 1 gates at clock 1 and
enters the render; the clock advances to 2; trigger 2 gates (the window
has elapsed) and enters the render while trigger 1 is still inside. -/
theorem reach_bothRendering :
    RReach debounceWindow (initRSys 1) bothRenderingSys :=
  Relation.ReflTransGen.head
    (RStep.gate1_pass (initRSys 1) rfl
      (by norm_num [initRSys, debounceWindow]))
    (Relation.ReflTransGen.head (RStep.go1 _ 1 rfl)
      (Relation.ReflTransGen.head
        (RStep.tick _ 2 (by norm_num [initRSys] : (1 : ℚ) ≤ 2))
        (Relation.ReflTransGen.head
          (RStep.gate2_pass _ rfl
            (by norm_num [debounceWindow] : debounceWindow ≤ (2 : ℚ) - 1))
          (Relation.ReflTransGen.head (RStep.go2 _ 2 rfl)
            Relation.ReflTransGen.refl))))

/-- C1 (counterexample to the claim as stated): the lock is released
before `render_target` is called, so a reachable configuration of the
two-trigger system has both triggers inside `render_target`
simultaneously — the render is not covered by the lock and two render
invocations for one target can be active at the same instant. -/
theorem concurrent_renders_overlap :
    RReach debounceWindow (initRSys 1) bothRenderingSys ∧
      isRendering bothRenderingSys.ph1 = true ∧
      isRendering bothRenderingSys.ph2 = true :=
  ⟨reach_bothRendering, rfl, rfl⟩

/-- Witness for `rebuild_gate_times_separated`: in the concrete
overlapping-render configuration, the two recorded gate times 1 and 2
are indeed at least the debounce window apart. -/
theorem rebuild_gate_times_separated_witness :
    (0 : ℚ) ≤ 1 ∧ gateTime bothRenderingSys.ph1 = some 1 ∧
      gateTime bothRenderingSys.ph2 = some 2 ∧
      debounceWindow ≤ |(1 : ℚ) - 2| :=
  ⟨by norm_num, rfl, rfl,
    rebuild_gate_times_separated 1 (by norm_num) bothRenderingSys
      reach_bothRendering 1 2 rfl rfl⟩

end MLP
